import Mathlib

/-
Shallow embedding of src/bridge.py (go2rtc-mqtt-bridge).

The bridge polls a go2rtc JSON endpoint, extracts a per-tablet view of the
streams (TabletExtractor), converts cumulative byte counters to Mbps
(MbpsCalculator), and publishes Home Assistant discovery configs once per
sensor plus state values every cycle (HADiscoveryPublisher / TabletPublisher).

Modelling conventions:
- JSON values are an inductive `Json`; JSON numbers are modelled as integers
  (the byte counters the bridge reads are integers).
- Python dicts are insertion-ordered association lists; dict assignment
  overwrites in place or appends (`insertA`), `dict.get` is `jGet`.
- Fallible Python evaluation (AttributeError from calling `.items`/`.get` on a
  non-dict, IndexError from `[][0]`, TypeError from iterating a non-iterable)
  is modelled with `Except Err`; an error propagating out of a function
  corresponds to the Python exception propagating (any partially built local
  dict is discarded with the frame, so only the error is observable).
- Python float arithmetic is idealised as exact rational arithmetic; `round`
  with 2 digits is round-to-nearest-hundredth with ties to even, which is
  CPython's documented behaviour (`round` rounds to the closest multiple of
  10^-2, ties toward the even choice).
-/

set_option maxRecDepth 10000

inductive Json where
  | obj : List (String × Json) → Json
  | arr : List Json → Json
  | str : String → Json
  | int : Int → Json
  | bool : Bool → Json
  | null : Json

/-- Python exception kinds that the bridge code can raise. -/
inductive Err where
  | attributeError
  | indexError
  | typeError
  | keyError
deriving DecidableEq

/-- A stream metric as built by `extract_tablets` (a Python dict literal with
keys "source", "format_name", "bytes_send"), kept as a keyed list so that the
field names themselves are part of the model. -/
abbrev Metric := List (String × Json)

/-- One entry of the tablets dict: `{'user_agent': ..., 'streams': {...}}`. -/
structure ClientView where
  user_agent : Json
  streams : List (String × Metric)

/-- The result dict of `TabletExtractor.extract_tablets`, keyed by client IP. -/
abbrev Tablets := List (String × ClientView)

/-- Lookup in an insertion-ordered dict (first matching key). -/
def lookupA {α : Type} : List (String × α) → String → Option α
  | [], _ => none
  | (k', v) :: rest, k => if k' = k then some v else lookupA rest k

/-- Python dict assignment `d[k] = v`: overwrite in place, else append. -/
def insertA {α : Type} (k : String) (v : α) : List (String × α) → List (String × α)
  | [] => [(k, v)]
  | (k', v') :: rest => if k' = k then (k, v) :: rest else (k', v') :: insertA k v rest

/-- Python `dict.get(k, default)` on the entry list of a JSON object. -/
def jGet (d : List (String × Json)) (k : String) (dflt : Json) : Json :=
  match lookupA d k with
  | some v => v
  | none => dflt

/-- Python truthiness of a JSON value. -/
def truthy : Json → Bool
  | .obj o => !o.isEmpty
  | .arr l => !l.isEmpty
  | .str s => s ≠ ""
  | .int n => n ≠ 0
  | .bool b => b
  | .null => false

/-- Python `str.endswith`, computed on the character lists. -/
def pyEndsWith (s suffixStr : String) : Bool :=
  suffixStr.data.isSuffixOf s.data

/-- Python subscript `x[0]`: first element of a list (IndexError when empty),
first character of a string, KeyError on a dict (our keys are strings, so the
integer key 0 is never present), TypeError otherwise. -/
def pySub0 : Json → Except Err Json
  | .arr [] => .error .indexError
  | .arr (h :: _) => .ok h
  | .str s =>
      match s.data with
      | [] => .error .indexError
      | ch :: _ => .ok (.str (String.mk [ch]))
  | .obj _ => .error .keyError
  | _ => .error .typeError

/-- Python `for x in v`: lists yield elements, strings yield characters,
dicts yield keys, anything else raises TypeError. -/
def pyIter : Json → Except Err (List Json)
  | .arr l => .ok l
  | .str s => .ok (s.data.map fun ch => .str (String.mk [ch]))
  | .obj o => .ok (o.map fun p => Json.str p.1)
  | _ => .error .typeError

/-- A Python `for` loop over `l` mutating an accumulator, where the body may
raise: the first error aborts the whole computation. -/
def foldE {α : Type} (f : Tablets → α → Except Err Tablets) : Tablets → List α → Except Err Tablets
  | t, [] => .ok t
  | t, a :: l =>
      match f t a with
      | .error e => .error e
      | .ok t' => foldE f t' l

/-- Model of `TabletExtractor.extract_ip` (bridge.py line 30-33):
`remote_addr.split(':')[0] if remote_addr else None`.  `split(':')[0]` is the
prefix of the string up to the first colon; a falsy value yields None; a
truthy non-string has no `.split` and raises AttributeError. -/
def extract_ip (remote_addr : Json) : Except Err (Option String) :=
  if truthy remote_addr then
    match remote_addr with
    | .str s => .ok (some (String.mk (s.data.takeWhile fun c => c ≠ ':')))
    | _ => .error .attributeError
  else .ok none

/-- Model of `tablets[ip]['streams'][stream_name] = metric` (bridge.py line 54-58):
update the streams dict of the entry keyed by `ip`. -/
def setStream (t : Tablets) (ip name : String) (m : Metric) : Tablets :=
  t.map fun e => if e.1 = ip then (e.1, ⟨e.2.user_agent, insertA name m e.2.streams⟩) else e

/-- Body of the consumer loop of `extract_tablets` (bridge.py line 46-58).
A non-dict consumer raises AttributeError at `consumer.get('remote_addr', '')`;
with a dict consumer every `consumer.get` succeeds, and the producer's `.get`
calls raise AttributeError when the producer is not a dict.  On an error the
whole extraction aborts (the exception propagates out of the Python function,
discarding the partially built dict), so returning only the error is faithful. -/
def processConsumer (t : Tablets) (name : String) (producer c : Json) : Except Err Tablets :=
  match c with
  | .obj co =>
      match extract_ip (jGet co "remote_addr" (Json.str "")) with
      | .error e => .error e
      | .ok none => .ok t
      | .ok (some ip) =>
          if ip = "" then .ok t
          else
            let t1 :=
              match lookupA t ip with
              | none => t ++ [(ip, ⟨jGet co "user_agent" (Json.str ""), []⟩)]
              | some _ => t
            match producer with
            | .obj po =>
                .ok (setStream t1 ip name
                  [("source", jGet po "source" (jGet po "url" (Json.str ""))),
                   ("format_name", jGet co "format_name" (Json.str "")),
                   ("bytes_send", jGet co "bytes_send" (Json.int 0))])
            | _ => .error .attributeError
  | _ => .error .attributeError

/-- Body of the stream loop of `extract_tablets` (bridge.py line 40-58).
Entries whose name does not end in `_tablet` are skipped; otherwise
`producer = stream_data.get('producers', [{}])[0]` (note: the default applies
only when the key is absent, so a present-but-empty list hits `[][0]` and
raises IndexError), then the consumer loop runs over
`stream_data.get('consumers', [])`. -/
def processStream (t : Tablets) (name : String) (data : Json) : Except Err Tablets :=
  if pyEndsWith name "_tablet" = false then .ok t
  else
    match data with
    | .obj d =>
        match pySub0 (jGet d "producers" (Json.arr [Json.obj []])) with
        | .error e => .error e
        | .ok producer =>
            match pyIter (jGet d "consumers" (Json.arr [])) with
            | .error e => .error e
            | .ok citems => foldE (fun acc c => processConsumer acc name producer c) t citems
    | _ => .error .attributeError

/-- Model of `TabletExtractor.extract_tablets` (bridge.py line 36-60).  `streams.items()`
on a non-dict raises AttributeError; there is no type guard in the code. -/
def extract_tablets (streams : Json) : Except Err Tablets :=
  match streams with
  | .obj items => foldE (fun t p => processStream t p.1 p.2) [] items
  | _ => .error .attributeError

/-- Result of `MbpsCalculator.calculate`: the first observation returns the
Python int literal `0`, later observations return a float (`round(x, 2)`
returns a float).  In the idealised model every such float is an exact
multiple of 1/100, so `float2 n` stands for the float with value `n / 100`. -/
inductive PyNum where
  | int : Int → PyNum
  | float2 : Int → PyNum
deriving DecidableEq

/-- The rational value of a `calculate` result. -/
def PyNum.toRat : PyNum → ℚ
  | .int n => (n : ℚ)
  | .float2 n => (n : ℚ) / 100

/-- Round a rational to the nearest integer with ties to even, the behaviour
of CPython's `round` (documented: "values are rounded to the closest multiple
of 10 to the power minus ndigits; if two multiples are equally close, rounding
is done toward the even choice"). -/
def rhe (x : ℚ) : Int :=
  if x - ⌊x⌋ < 1/2 then ⌊x⌋
  else if x - ⌊x⌋ > 1/2 then ⌊x⌋ + 1
  else if ⌊x⌋ % 2 = 0 then ⌊x⌋ else ⌊x⌋ + 1

/-- Python `round(q, 2)` on the idealised rational value of the float. -/
def round2 (q : ℚ) : ℚ := (rhe (q * 100) : ℚ) / 100

/-- Executable integer form of `rhe` on the fraction `num / den` (for
`den > 0`): integer `/` is floor division for a positive divisor, `r` the
nonnegative remainder, and the three branches compare `r / den` with `1/2`.
`rheInt_eq_rhe` below proves it agrees with the rational-level `rhe`. -/
def rheInt (num den : Int) : Int :=
  let q := num / den
  let r := num % den
  if 2 * r < den then q
  else if 2 * r > den then q + 1
  else if q % 2 = 0 then q else q + 1

/-- Modelled from the spec: "Rounding uses conventional half-up (...) round to
nearest, ties away from zero", 2 decimal places.  This is NOT the code's
rounding; it exists only to be compared against `round2`. -/
def roundHalfUp2 (q : ℚ) : ℚ :=
  let x := q * 100
  ((if 0 ≤ x then ⌊x + 1/2⌋ else ⌈x - 1/2⌉ : Int) : ℚ) / 100

/-- State of `MbpsCalculator` (bridge.py line 63-68): the poll interval fixed at
construction and the per-key previous byte counts. -/
structure MbpsCalculator where
  poll_interval : Int
  previous_bytes : List (String × Int)

/-- Model of `MbpsCalculator.calculate` (bridge.py line 70-78).  First call for a key
stores the counter and returns the int 0; later calls return
`round((bytes_diff * 8) / (poll_interval * 1_000_000), 2)` (a float) and
update the stored counter.  The rounded quotient is computed in integers:
the hundredths count of `round(x, 2)` for `x = (bytes_diff * 8) / (poll_interval
* 1_000_000)` is `rhe (x * 100) = rheInt (bytes_diff * 8 * 100) (poll_interval *
1_000_000)`.  Division is idealised as exact rational division (Python would
raise ZeroDivisionError for poll_interval = 0; theorems about the rate
therefore assume a positive interval). -/
def MbpsCalculator.calculate (m : MbpsCalculator) (key : String) (current_bytes : Int) :
    PyNum × MbpsCalculator :=
  match lookupA m.previous_bytes key with
  | none => (PyNum.int 0, ⟨m.poll_interval, insertA key current_bytes m.previous_bytes⟩)
  | some prev =>
      let bytes_diff := current_bytes - prev
      (PyNum.float2 (rheInt (bytes_diff * 8 * 100) (m.poll_interval * 1000000)),
       ⟨m.poll_interval, insertA key current_bytes m.previous_bytes⟩)

/-- Python `str()` of a float worth `n / 100`: CPython prints a float as its
shortest decimal form, i.e. with the trailing zero of the hundredths digit
dropped and always at least one fractional digit. -/
def pyFloatStr (n : Int) : String :=
  let sign := if n < 0 then "-" else ""
  let a := n.natAbs
  let ipart := a / 100
  let fpart := a % 100
  if fpart = 0 then sign ++ toString ipart ++ ".0"
  else if fpart % 10 = 0 then sign ++ toString ipart ++ "." ++ toString (fpart / 10)
  else sign ++ toString ipart ++ "." ++ (if fpart < 10 then "0" else "") ++ toString fpart

/-- Python `str()` of a `calculate` result. -/
def pyStr : PyNum → String
  | .int n => toString n
  | .float2 n => pyFloatStr n

/-- Payload published to MQTT: either serialized JSON (`json.dumps(config)`
of a discovery config, recorded as the JSON value handed to `json.dumps`) or
the plain text of a state value. -/
inductive Payload where
  | json : Json → Payload
  | text : String → Payload

/-- State of `HADiscoveryPublisher` (bridge.py line 98-105): discovery prefix
(source name `ha_prefix`), topic root, and the announced-key set `published`
(a Python set, modelled as a duplicate-free-by-construction list). -/
structure HADiscoveryPublisher where
  ha_pref : String
  mqtt_topic : String
  published : List String

/-- The discovery config dict built by `publish_sensor` (bridge.py
line 113-120).  `if unit:` is Python truthiness, so an empty-string unit is
omitted like None. -/
def sensorConfig (device_id entity_id name state_topic : String) (device : Json)
    (unit : Option String) : Json :=
  Json.obj
    ([("name", Json.str name),
      ("unique_id", Json.str ("go2rtc_" ++ device_id ++ "_" ++ entity_id)),
      ("state_topic", Json.str state_topic),
      ("device", device)] ++
     (match unit with
      | some u => if u = "" then [] else [("unit_of_measurement", Json.str u)]
      | none => []))

/-- Model of `HADiscoveryPublisher.publish_sensor` (bridge.py line 107-124): no-op when
`device_id + "_" + entity_id` is already announced; otherwise emit the config
on the discovery topic and record the key.  Returns the new state and the list
of MQTT messages emitted. -/
def HADiscoveryPublisher.publish_sensor (p : HADiscoveryPublisher)
    (device_id entity_id name state_topic : String) (device : Json) (unit : Option String) :
    HADiscoveryPublisher × List (String × Payload) :=
  let unique_key := device_id ++ "_" ++ entity_id
  if unique_key ∈ p.published then (p, [])
  else
    (⟨p.ha_pref, p.mqtt_topic, p.published ++ [unique_key]⟩,
     [(p.ha_pref ++ "/sensor/go2rtc_" ++ device_id ++ "/" ++ entity_id ++ "/config",
       Payload.json (sensorConfig device_id entity_id name state_topic device unit))])

/-- Replace every occurrence of one character, modelling the single-character
`str.replace` calls of the bridge (`ip.replace('.', '_')`,
`field.replace('_', ' ')`). -/
def replaceChar (c1 c2 : Char) (s : String) : String :=
  String.mk (s.data.map fun c => if c = c1 then c2 else c)

/-- Python `str.title()` on ASCII text: a letter is uppercased when the
previous character is not a letter, lowercased otherwise. -/
def pyTitle (s : String) : String :=
  String.mk ((s.data.foldl
    (fun (acc : List Char × Bool) c =>
      (acc.1 ++ [if c.isAlpha then (if acc.2 then c.toLower else c.toUpper) else c], c.isAlpha))
    ([], false)).1)

/-- Model of `HADiscoveryPublisher.create_device_config` (bridge.py line 126-134). -/
def create_device_config (ip : String) : Json :=
  let device_id := "tablet_" ++ replaceChar '.' '_' ip
  Json.obj
    [("identifiers", Json.arr [Json.str ("go2rtc_" ++ device_id)]),
     ("name", Json.str ("Tablet " ++ ip)),
     ("manufacturer", Json.str "go2rtc"),
     ("model", Json.str "Android Tablet")]

/-- Python `str()` of a field value as published by `_publish_field`.  The
happy path only ever prints strings and ints; the repr of containers is not
modelled (marked with placeholders) since the bridge never publishes one. -/
def pyStrJ : Json → String
  | .str s => s
  | .int n => toString n
  | .bool b => if b then "True" else "False"
  | .null => "None"
  | .obj _ => "<dict>"
  | .arr _ => "<list>"

/-- Combined mutable state threaded through `TabletPublisher`: the discovery
publisher, the rate calculator, and the ordered log of MQTT messages
published so far (`MqttPublisher.publish` appends to it). -/
structure SysState where
  ha : HADiscoveryPublisher
  mbps_calc : MbpsCalculator
  log : List (String × Payload)

/-- Model of `TabletPublisher._publish_field` (bridge.py line 173-180): announce-once
the sensor, then always publish `str(value)` on the state topic. -/
def publish_field (st : SysState) (device_id base_topic : String) (device : Json)
    (stream_name field : String) (value : Json) : SysState :=
  let entity_id := stream_name ++ "_" ++ field
  let name := stream_name ++ " " ++ pyTitle (replaceChar '_' ' ' field)
  let state_topic := base_topic ++ "/" ++ stream_name ++ "/" ++ field
  let pr := st.ha.publish_sensor device_id entity_id name state_topic device none
  ⟨pr.1, st.mbps_calc, (st.log ++ pr.2) ++ [(state_topic, Payload.text (pyStrJ value))]⟩

/-- Model of `TabletPublisher._publish_mbps` (bridge.py line 182-191): compute the rate
for key `ip + "_" + stream_name`, announce-once the Mbps sensor (with unit),
then always publish `str(mbps)` on the state topic. -/
def publish_mbps (st : SysState) (ip device_id base_topic : String) (device : Json)
    (stream_name : String) (bytes_send : Int) : SysState :=
  let entity_id := stream_name ++ "_mbps"
  let state_topic := base_topic ++ "/" ++ stream_name ++ "/mbps"
  let mc := st.mbps_calc.calculate (ip ++ "_" ++ stream_name) bytes_send
  let pr := st.ha.publish_sensor device_id entity_id (stream_name ++ " Mbps") state_topic device
    (some "Mbps")
  ⟨pr.1, mc.2, (st.log ++ pr.2) ++ [(state_topic, Payload.text (pyStr mc.1))]⟩

/-- Iterate `_publish_field` with fixed arguments (repeated poll cycles
publishing the same sensor). -/
def iterPF (device_id base_topic : String) (device : Json) (stream_name field : String)
    (value : Json) : Nat → SysState → SysState
  | 0, st => st
  | n + 1, st => iterPF device_id base_topic device stream_name field value n
      (publish_field st device_id base_topic device stream_name field value)

/-- The end-to-end scenario payload of the spec (one `_tablet` stream, one
producer with a source, one consumer). -/
def scenarioPayload : Json :=
  Json.obj
    [("cam1_tablet", Json.obj
      [("producers", Json.arr [Json.obj [("source", Json.str "rtsp://cam1")]]),
       ("consumers", Json.arr
         [Json.obj
           [("remote_addr", Json.str "10.0.0.5:9999"),
            ("user_agent", Json.str "TabletUA"),
            ("format_name", Json.str "h264"),
            ("bytes_send", Json.int 500000)]])])]

/-- The ClientView the code extracts from `scenarioPayload`; note the metric
key is `bytes_send`, exactly as the code writes it. -/
def scenarioView : Tablets :=
  [("10.0.0.5",
    ⟨Json.str "TabletUA",
     [("cam1_tablet",
       [("source", Json.str "rtsp://cam1"),
        ("format_name", Json.str "h264"),
        ("bytes_send", Json.int 500000)])]⟩)]

/-- Is the JSON value a mapping (Python dict)? -/
def isMapping : Json → Bool
  | .obj _ => true
  | _ => false

/-- Every stream key in the tablets dict carries the `_tablet` suffix. -/
def goodT (t : Tablets) : Prop :=
  ∀ e ∈ t, ∀ se ∈ e.2.streams, pyEndsWith se.1 "_tablet" = true

/-- The discovery message `_publish_field` emits for a fresh sensor. -/
def fieldDiscMsg (pref device_id base_topic : String) (device : Json)
    (stream_name field : String) : String × Payload :=
  (pref ++ "/sensor/go2rtc_" ++ device_id ++ "/" ++ (stream_name ++ "_" ++ field) ++ "/config",
   Payload.json (sensorConfig device_id (stream_name ++ "_" ++ field)
     (stream_name ++ " " ++ pyTitle (replaceChar '_' ' ' field))
     (base_topic ++ "/" ++ stream_name ++ "/" ++ field) device none))

/-- The state message `_publish_field` emits on every call. -/
def fieldStateMsg (base_topic stream_name field : String) (value : Json) : String × Payload :=
  (base_topic ++ "/" ++ stream_name ++ "/" ++ field, Payload.text (pyStrJ value))

/-! Helper lemmas about the dict operations. -/

theorem lookupA_insertA_self {α : Type} (k : String) (v : α) :
    ∀ l : List (String × α), lookupA (insertA k v l) k = some v := by
  intro l
  induction l with
  | nil => simp [insertA, lookupA]
  | cons hd tl ih =>
      by_cases h : hd.1 = k
      · simp [insertA, h, lookupA]
      · simp only [insertA, lookupA]
        rw [if_neg (by exact h)]
        simp only [lookupA]
        rw [if_neg (by exact h)]
        exact ih

theorem lookupA_mem {α : Type} {l : List (String × α)} {k : String} {v : α}
    (h : lookupA l k = some v) : (k, v) ∈ l := by
  induction l with
  | nil => simp [lookupA] at h
  | cons hd tl ih =>
      obtain ⟨a, b⟩ := hd
      rw [lookupA] at h
      by_cases hk : a = k
      · rw [if_pos hk] at h
        have hv : b = v := Option.some.inj h
        subst hk
        subst hv
        exact List.mem_cons_self _ _
      · rw [if_neg hk] at h
        exact List.mem_cons_of_mem _ (ih h)

theorem lookupA_append_self {α : Type} {l : List (String × α)} {k : String}
    (h : lookupA l k = none) (v : α) : lookupA (l ++ [(k, v)]) k = some v := by
  induction l with
  | nil => simp [lookupA]
  | cons hd tl ih =>
      rw [lookupA] at h
      by_cases hk : hd.1 = k
      · rw [if_pos hk] at h
        exact absurd h (by simp)
      · rw [if_neg hk] at h
        simpa [lookupA, hk] using ih h

theorem mem_insertA {α : Type} {se : String × α} {k : String} {v : α} :
    ∀ {l : List (String × α)}, se ∈ insertA k v l → se = (k, v) ∨ se ∈ l := by
  intro l
  induction l with
  | nil => simp [insertA]
  | cons hd tl ih =>
      obtain ⟨a, b⟩ := hd
      intro h
      rw [insertA] at h
      by_cases hk : a = k
      · rw [if_pos hk] at h
        rcases List.mem_cons.mp h with h | h
        · exact Or.inl h
        · exact Or.inr (List.mem_cons_of_mem _ h)
      · rw [if_neg hk] at h
        rcases List.mem_cons.mp h with h | h
        · exact Or.inr (h ▸ List.mem_cons_self _ _)
        · rcases ih h with h' | h'
          · exact Or.inl h'
          · exact Or.inr (List.mem_cons_of_mem _ h')

theorem lookupA_setStream_isSome {t : Tablets} {k : String} (ip name : String) (m : Metric)
    (h : lookupA t k ≠ none) : lookupA (setStream t ip name m) k ≠ none := by
  induction t with
  | nil => simp [lookupA] at h
  | cons hd tl ih =>
      rw [lookupA] at h
      rw [setStream, List.map_cons]
      by_cases hk : hd.1 = k
      · by_cases hip : hd.1 = ip
        · rw [if_pos hip]
          simp only [lookupA]
          rw [if_pos hk]
          simp
        · rw [if_neg hip]
          simp only [lookupA]
          rw [if_pos hk]
          simp
      · rw [if_neg hk] at h
        have htl := ih h
        by_cases hip : hd.1 = ip
        · rw [if_pos hip]
          simp only [lookupA]
          rw [if_neg hk]
          simpa [setStream] using htl
        · rw [if_neg hip]
          simp only [lookupA]
          rw [if_neg hk]
          simpa [setStream] using htl


/-! Invariant preservation through the extraction loops. -/

theorem foldE_inv {α : Type} {P : Tablets → Prop} {f : Tablets → α → Except Err Tablets}
    (hf : ∀ t a t', P t → f t a = .ok t' → P t') :
    ∀ (l : List α) (t0 t : Tablets), P t0 → foldE f t0 l = .ok t → P t := by
  intro l
  induction l with
  | nil =>
      intro t0 t h0 hfold
      rw [foldE] at hfold
      exact (Except.ok.inj hfold) ▸ h0
  | cons a l ih =>
      intro t0 t h0 hfold
      rw [foldE] at hfold
      cases hstep : f t0 a with
      | error e => rw [hstep] at hfold; exact absurd hfold (by simp)
      | ok t1 => rw [hstep] at hfold; exact ih t1 t (hf t0 a t1 h0 hstep) hfold

theorem goodT_nil : goodT [] := by
  intro e he
  simp at he

theorem goodT_append_new {t : Tablets} (hg : goodT t) (ip : String) (ua : Json) :
    goodT (t ++ [(ip, ⟨ua, []⟩)]) := by
  intro e he se hse
  rcases List.mem_append.mp he with h | h
  · exact hg e h se hse
  · rcases List.mem_singleton.mp h with rfl
    simp at hse

theorem goodT_setStream {t : Tablets} (hg : goodT t) {name : String}
    (hname : pyEndsWith name "_tablet" = true) (ip : String) (m : Metric) :
    goodT (setStream t ip name m) := by
  intro e he se hse
  rw [setStream] at he
  rcases List.mem_map.mp he with ⟨e0, he0, hfe⟩
  by_cases hip : e0.1 = ip
  · rw [if_pos hip] at hfe
    rcases hfe.symm ▸ hse with hse'
    have hse2 : se ∈ insertA name m e0.2.streams := by
      rw [← hfe] at hse
      exact hse
    rcases mem_insertA hse2 with h | h
    · rw [h]
      exact hname
    · exact hg e0 he0 se h
  · rw [if_neg hip] at hfe
    exact hg e0 he0 se (hfe ▸ hse)

theorem processConsumer_good {t t' : Tablets} {name : String} {producer c : Json}
    (hname : pyEndsWith name "_tablet" = true) (hg : goodT t)
    (h : processConsumer t name producer c = .ok t') : goodT t' := by
  cases c with
  | obj co =>
      cases hip : extract_ip (jGet co "remote_addr" (Json.str "")) with
      | error e => simp [processConsumer, hip] at h
      | ok o =>
          cases o with
          | none =>
              simp only [processConsumer, hip] at h
              exact (Except.ok.inj h) ▸ hg
          | some ip =>
              simp only [processConsumer, hip] at h
              by_cases hemp : ip = ""
              · rw [if_pos hemp] at h
                exact (Except.ok.inj h) ▸ hg
              · rw [if_neg hemp] at h
                cases producer with
                | obj po =>
                    cases hl : lookupA t ip with
                    | none =>
                        simp only [hl] at h
                        exact (Except.ok.inj h) ▸
                          goodT_setStream (goodT_append_new hg ip _) hname ip _
                    | some v =>
                        simp only [hl] at h
                        exact (Except.ok.inj h) ▸ goodT_setStream hg hname ip _
                | arr l => simp at h
                | str s => simp at h
                | int n => simp at h
                | bool b => simp at h
                | null => simp at h
  | arr l => simp [processConsumer] at h
  | str s => simp [processConsumer] at h
  | int n => simp [processConsumer] at h
  | bool b => simp [processConsumer] at h
  | null => simp [processConsumer] at h

theorem processStream_good {t t' : Tablets} {name : String} {data : Json}
    (hg : goodT t) (h : processStream t name data = .ok t') : goodT t' := by
  rw [processStream.eq_def] at h
  split at h
  · exact (Except.ok.inj h) ▸ hg
  · rename_i hb
    have hbt : pyEndsWith name "_tablet" = true := by
      cases hq : pyEndsWith name "_tablet"
      · exact absurd hq hb
      · rfl
    split at h
    · split at h
      · exact absurd h (by simp)
      · split at h
        · exact absurd h (by simp)
        · exact foldE_inv (fun ta a ta' hta hstep =>
            processConsumer_good hbt hta hstep) _ t t' hg h
    · exact absurd h (by simp)

theorem extract_tablets_good {streams : Json} {t : Tablets}
    (h : extract_tablets streams = .ok t) : goodT t := by
  cases streams with
  | obj items =>
      rw [extract_tablets] at h
      exact foldE_inv (fun ta a ta' hta hstep => processStream_good hta hstep)
        items [] t goodT_nil h
  | arr l => simp [extract_tablets] at h
  | str s => simp [extract_tablets] at h
  | int n => simp [extract_tablets] at h
  | bool b => simp [extract_tablets] at h
  | null => simp [extract_tablets] at h

/-! Rounding lemmas: the integer computation agrees with the rational-level
`rhe`, and `rhe` is a nearest-with-ties-to-even rounding. -/

theorem rheInt_eq_rhe {num den : Int} (hd : 0 < den) :
    rheInt num den = rhe ((num : ℚ) / (den : ℚ)) := by
  have hdQ : (0 : ℚ) < (den : ℚ) := by exact_mod_cast hd
  have hne : den ≠ 0 := ne_of_gt hd
  have h0 : 0 ≤ num % den := Int.emod_nonneg num hne
  have h1 : num % den < den := Int.emod_lt_of_pos num hd
  have hqr : den * (num / den) + num % den = num := Int.ediv_add_emod num den
  have hqrQ : (den : ℚ) * ((num / den : Int) : ℚ) + ((num % den : Int) : ℚ) = (num : ℚ) := by
    exact_mod_cast hqr
  have hx : (num : ℚ) / (den : ℚ) = ((num / den : Int) : ℚ) + ((num % den : Int) : ℚ) / (den : ℚ) := by
    rw [← hqrQ]
    field_simp
    ring_nf
  have hfloor : ⌊(num : ℚ) / (den : ℚ)⌋ = num / den := by
    rw [Int.floor_eq_iff]
    constructor
    · rw [hx]
      have : (0 : ℚ) ≤ ((num % den : Int) : ℚ) / (den : ℚ) :=
        div_nonneg (by exact_mod_cast h0) (le_of_lt hdQ)
      linarith
    · rw [hx]
      have : ((num % den : Int) : ℚ) / (den : ℚ) < 1 :=
        (div_lt_one hdQ).mpr (by exact_mod_cast h1)
      linarith
  have hfract : (num : ℚ) / (den : ℚ) - (⌊(num : ℚ) / (den : ℚ)⌋ : ℚ)
      = ((num % den : Int) : ℚ) / (den : ℚ) := by
    rw [hfloor, hx]
    ring_nf
  have hclt : ((num : ℚ) / (den : ℚ) - (⌊(num : ℚ) / (den : ℚ)⌋ : ℚ) < 1/2)
      ↔ (2 * (num % den) < den) := by
    rw [hfract, div_lt_iff₀ hdQ]
    constructor
    · intro hlt
      have : ((2 * (num % den) : Int) : ℚ) < (den : ℚ) := by push_cast; linarith
      exact_mod_cast this
    · intro hlt
      have : ((2 * (num % den) : Int) : ℚ) < (den : ℚ) := by exact_mod_cast hlt
      push_cast at this
      linarith
  have hcgt : ((num : ℚ) / (den : ℚ) - (⌊(num : ℚ) / (den : ℚ)⌋ : ℚ) > 1/2)
      ↔ (2 * (num % den) > den) := by
    rw [hfract, gt_iff_lt, lt_div_iff₀ hdQ]
    constructor
    · intro hlt
      have : (den : ℚ) < ((2 * (num % den) : Int) : ℚ) := by push_cast; linarith
      exact_mod_cast this
    · intro hlt
      have : (den : ℚ) < ((2 * (num % den) : Int) : ℚ) := by exact_mod_cast hlt
      push_cast at this
      linarith
  rw [rheInt, rhe]
  by_cases hA : 2 * (num % den) < den
  · rw [if_pos hA, if_pos (hclt.mpr hA), hfloor]
  · rw [if_neg hA, if_neg (fun hq => hA (hclt.mp hq))]
    by_cases hB : 2 * (num % den) > den
    · rw [if_pos hB, if_pos (hcgt.mpr hB), hfloor]
    · rw [if_neg hB, if_neg (fun hq => hB (hcgt.mp hq)), hfloor]

theorem rhe_dist (x : ℚ) : |x - (rhe x : ℚ)| ≤ 1/2 := by
  have h0 : (⌊x⌋ : ℚ) ≤ x := Int.floor_le x
  have h1 : x < ⌊x⌋ + 1 := Int.lt_floor_add_one x
  rw [rhe]
  by_cases hA : x - ⌊x⌋ < 1/2
  · rw [if_pos hA, abs_le]
    constructor <;> linarith
  · rw [if_neg hA]
    by_cases hB : x - ⌊x⌋ > 1/2
    · rw [if_pos hB]
      rw [abs_le]
      push_cast
      constructor <;> linarith
    · rw [if_neg hB]
      have heq : x - ⌊x⌋ = 1/2 := le_antisymm (not_lt.mp hB) (not_lt.mp hA)
      by_cases hC : ⌊x⌋ % 2 = 0
      · rw [if_pos hC, abs_le]
        constructor <;> linarith
      · rw [if_neg hC, abs_le]
        push_cast
        constructor <;> linarith

theorem rhe_tie_even {x : ℚ} (htie : x - ⌊x⌋ = 1/2) : rhe x % 2 = 0 := by
  rw [rhe, if_neg (by rw [htie]; norm_num), if_neg (by rw [htie]; norm_num)]
  by_cases hC : ⌊x⌋ % 2 = 0
  · rw [if_pos hC]
    exact hC
  · rw [if_neg hC]
    omega

/-! Publishing lemmas: the two messages `_publish_field` can emit, and how one
call and `n` repeated calls transform the state. -/

theorem publish_field_fresh (st : SysState) (device_id base_topic : String) (device : Json)
    (stream_name field : String) (value : Json)
    (hfresh : device_id ++ "_" ++ (stream_name ++ "_" ++ field) ∉ st.ha.published) :
    publish_field st device_id base_topic device stream_name field value =
      ⟨⟨st.ha.ha_pref, st.ha.mqtt_topic,
        st.ha.published ++ [device_id ++ "_" ++ (stream_name ++ "_" ++ field)]⟩,
       st.mbps_calc,
       st.log ++ [fieldDiscMsg st.ha.ha_pref device_id base_topic device stream_name field,
                  fieldStateMsg base_topic stream_name field value]⟩ := by
  simp [publish_field, HADiscoveryPublisher.publish_sensor, hfresh,
    fieldDiscMsg, fieldStateMsg]

theorem publish_field_seen (st : SysState) (device_id base_topic : String) (device : Json)
    (stream_name field : String) (value : Json)
    (hseen : device_id ++ "_" ++ (stream_name ++ "_" ++ field) ∈ st.ha.published) :
    publish_field st device_id base_topic device stream_name field value =
      ⟨st.ha, st.mbps_calc,
       st.log ++ [fieldStateMsg base_topic stream_name field value]⟩ := by
  simp [publish_field, HADiscoveryPublisher.publish_sensor, hseen, fieldStateMsg]

theorem iterPF_seen (device_id base_topic : String) (device : Json)
    (stream_name field : String) (value : Json) :
    ∀ (n : Nat) (st : SysState),
    device_id ++ "_" ++ (stream_name ++ "_" ++ field) ∈ st.ha.published →
    iterPF device_id base_topic device stream_name field value n st =
      ⟨st.ha, st.mbps_calc,
       st.log ++ List.replicate n (fieldStateMsg base_topic stream_name field value)⟩ := by
  intro n
  induction n with
  | zero =>
      intro st hseen
      simp [iterPF]
  | succ n ih =>
      intro st hseen
      rw [iterPF, publish_field_seen st device_id base_topic device stream_name field value hseen]
      rw [ih ⟨st.ha, st.mbps_calc,
            st.log ++ [fieldStateMsg base_topic stream_name field value]⟩ hseen]
      simp [List.replicate_succ]

/-! Helpers for the IP-derivation claim. -/

theorem takeWhile_all {p : Char → Bool} :
    ∀ {l : List Char}, (∀ c ∈ l, p c = true) → l.takeWhile p = l := by
  intro l
  induction l with
  | nil => intro _; rfl
  | cons c l ih =>
      intro hall
      rw [List.takeWhile_cons, hall c (List.mem_cons_self _ _), if_pos rfl,
        ih fun c' hc' => hall c' (List.mem_cons_of_mem _ hc')]

theorem strmk_data (s : String) : String.mk s.data = s := by
  cases s
  rfl

/-- C1 (amended): for every input that is not a mapping, `extract_tablets`
raises an AttributeError (`streams.items()` on a non-dict) that propagates to
the caller; it does not yield an empty ClientView map, and the code contains
no `InvalidPayload` guard. -/
theorem C1_nonmapping_raises (j : Json) (h : isMapping j = false) :
    extract_tablets j = Except.error Err.attributeError := by
  cases j with
  | obj o => simp [isMapping] at h
  | arr l => rfl
  | str s => rfl
  | int n => rfl
  | bool b => rfl
  | null => rfl

theorem C1_nonmapping_raises_witness :
    extract_tablets (Json.arr [Json.str "x"]) = Except.error Err.attributeError :=
  C1_nonmapping_raises (Json.arr [Json.str "x"]) rfl

/-- C1 (counterexample): on the concrete non-mapping payload `[]` (a JSON
list), extraction does not yield the empty ClientView map; it raises
AttributeError, the exception the claim says does not happen. -/
theorem C1_counterexample :
    extract_tablets (Json.arr []) = Except.error Err.attributeError ∧
    extract_tablets (Json.arr []) ≠ Except.ok [] := by
  constructor
  · rfl
  · intro h
    rw [show extract_tablets (Json.arr []) = Except.error Err.attributeError from rfl] at h
    exact Except.noConfusion h

/-- C2 (amended): the end-to-end scenario payload extracts to exactly the
expected ClientView, except that the metric dict key is `bytes_send` (the
code's spelling, bridge.py line 57), not `bytes_sent`; with poll interval 30
the first cycle yields mbps 0 (published as "0") and the second cycle with
counter 800000 yields 0.08 (published as "0.08"). -/
theorem C2_end_to_end :
    extract_tablets scenarioPayload = Except.ok scenarioView ∧
    ((MbpsCalculator.mk 30 []).calculate "10.0.0.5_cam1_tablet" 500000).1 = PyNum.int 0 ∧
    pyStr ((MbpsCalculator.mk 30 []).calculate "10.0.0.5_cam1_tablet" 500000).1 = "0" ∧
    (((MbpsCalculator.mk 30 []).calculate "10.0.0.5_cam1_tablet" 500000).2.calculate
        "10.0.0.5_cam1_tablet" 800000).1 = PyNum.float2 8 ∧
    (PyNum.float2 8).toRat = 8 / 100 ∧
    pyStr (PyNum.float2 8) = "0.08" :=
  ⟨rfl, rfl, rfl, by decide, by norm_num [PyNum.toRat], rfl⟩

/-- C2 (counterexample): in the extracted metric for the scenario payload the
byte counter sits under the key "bytes_send"; there is no "bytes_sent" key,
contradicting the claimed StreamMetric field name. -/
theorem C2_counterexample :
    extract_tablets scenarioPayload = Except.ok scenarioView ∧
    lookupA [("source", Json.str "rtsp://cam1"), ("format_name", Json.str "h264"),
      ("bytes_send", Json.int 500000)] "bytes_sent" = none ∧
    lookupA [("source", Json.str "rtsp://cam1"), ("format_name", Json.str "h264"),
      ("bytes_send", Json.int 500000)] "bytes_send" = some (Json.int 500000) :=
  ⟨rfl, rfl, rfl⟩

/-- C3 (code bug): a `_tablet` stream whose "producers" key is present but an
empty list makes extraction fail with an IndexError (`[][0]` at bridge.py
line 44: the `[{}]` default of `.get` applies only when the key is absent),
instead of falling back to an empty-text source; with the "producers" key
absent the same record extracts fine, showing the graceful default was the
intent. -/
theorem C3_empty_producers_raises :
    extract_tablets (Json.obj [("cam1_tablet", Json.obj
      [("producers", Json.arr []), ("consumers", Json.arr [])])])
      = Except.error Err.indexError ∧
    extract_tablets (Json.obj [("cam1_tablet", Json.obj [("consumers", Json.arr [])])])
      = Except.ok [] :=
  ⟨rfl, rfl⟩

/-- The rate returned for an already-observed key, as an exact rational:
shared by the C4 and C5 theorems. -/
theorem calculate_toRat (m : MbpsCalculator) (key : String) (cur prev : Int)
    (hprev : lookupA m.previous_bytes key = some prev) (hpos : 0 < m.poll_interval) :
    (m.calculate key cur).1.toRat =
      round2 ((((cur - prev) : Int) : ℚ) * 8 / ((m.poll_interval : ℚ) * 1000000)) := by
  have hden : (0 : Int) < m.poll_interval * 1000000 := by
    have : (0 : Int) < 1000000 := by norm_num
    exact mul_pos hpos this
  simp only [MbpsCalculator.calculate, hprev, PyNum.toRat, round2]
  rw [rheInt_eq_rhe hden]
  congr 2
  push_cast
  ring_nf

/-- C4 (confirmed): for an already-observed key, `calculate` returns
`round((current - baseline) * 8 / (interval * 1_000_000), 2)` and updates the
stored baseline to the current counter; the formula is applied verbatim also
when the delta is negative (no clamping: see the witness, where the result is
-0.27). -/
theorem C4_rate_formula (m : MbpsCalculator) (key : String) (cur prev : Int)
    (hprev : lookupA m.previous_bytes key = some prev) (hpos : 0 < m.poll_interval) :
    (m.calculate key cur).1 =
      PyNum.float2 (rheInt ((cur - prev) * 8 * 100) (m.poll_interval * 1000000)) ∧
    (m.calculate key cur).1.toRat =
      round2 ((((cur - prev) : Int) : ℚ) * 8 / ((m.poll_interval : ℚ) * 1000000)) ∧
    lookupA (m.calculate key cur).2.previous_bytes key = some cur := by
  refine ⟨?_, calculate_toRat m key cur prev hprev hpos, ?_⟩
  · simp only [MbpsCalculator.calculate, hprev]
  · simp only [MbpsCalculator.calculate, hprev]
    exact lookupA_insertA_self key cur m.previous_bytes

theorem C4_rate_formula_witness :
    (((MbpsCalculator.mk 30 [("k", 1000000)]).calculate "k" 0).1 =
      PyNum.float2 (rheInt ((0 - 1000000) * 8 * 100) (30 * 1000000)) ∧
    ((MbpsCalculator.mk 30 [("k", 1000000)]).calculate "k" 0).1.toRat =
      round2 ((((0 - 1000000) : Int) : ℚ) * 8 / (((30 : Int) : ℚ) * 1000000)) ∧
    lookupA ((MbpsCalculator.mk 30 [("k", 1000000)]).calculate "k" 0).2.previous_bytes "k"
      = some 0) ∧
    rheInt ((0 - 1000000) * 8 * 100) (30 * 1000000) = -27 :=
  ⟨C4_rate_formula ⟨30, [("k", 1000000)]⟩ "k" 0 1000000 rfl (by decide), by decide⟩

/-- Helper: 25/2 is an exact tie between 12 and 13. -/
theorem tie_half : (25/2 : ℚ) - ⌊(25/2 : ℚ)⌋ = 1/2 := by
  norm_num

/-- C5 (amended): the rounding of the published rate is CPython `round`, i.e.
round-to-nearest-hundredth with ties to even (never more than half a
hundredth away, and at an exact tie the chosen hundredths count is even), not
half-up; and the published text is Python `str()` of the value, so the
first-observation int 0 is published as "0", not with two decimal places. -/
theorem C5_round_behaviour :
    (∀ q : ℚ, round2 q = (rhe (q * 100) : ℚ) / 100) ∧
    (∀ (m : MbpsCalculator) (key : String) (cur prev : Int),
       lookupA m.previous_bytes key = some prev → 0 < m.poll_interval →
       (m.calculate key cur).1.toRat =
         round2 ((((cur - prev) : Int) : ℚ) * 8 / ((m.poll_interval : ℚ) * 1000000))) ∧
    (∀ x : ℚ, |x - (rhe x : ℚ)| ≤ 1/2) ∧
    (∀ x : ℚ, x - ⌊x⌋ = 1/2 → rhe x % 2 = 0) ∧
    (∀ (m : MbpsCalculator) (key : String) (cur : Int),
       lookupA m.previous_bytes key = none → pyStr (m.calculate key cur).1 = "0") := by
  refine ⟨fun q => rfl, calculate_toRat, rhe_dist, fun x h => rhe_tie_even h, ?_⟩
  intro m key cur h
  simp only [MbpsCalculator.calculate, h, pyStr]
  rfl

theorem C5_round_behaviour_witness :
    round2 (1/8) = (rhe ((1/8 : ℚ) * 100) : ℚ) / 100 ∧
    ((MbpsCalculator.mk 2 [("k", 0)]).calculate "k" 31250).1.toRat =
      round2 ((((31250 - 0) : Int) : ℚ) * 8 / (((2 : Int) : ℚ) * 1000000)) ∧
    rhe (25/2) % 2 = 0 ∧
    pyStr ((MbpsCalculator.mk 2 []).calculate "k" 5).1 = "0" :=
  ⟨C5_round_behaviour.1 (1/8),
   C5_round_behaviour.2.1 ⟨2, [("k", 0)]⟩ "k" 31250 0 rfl (by decide),
   C5_round_behaviour.2.2.2.1 (25/2) tie_half,
   C5_round_behaviour.2.2.2.2 ⟨2, []⟩ "k" 5 rfl⟩

/-- C5 (counterexample): with poll interval 2 and a stored baseline 0, a
sample of 31250 bytes makes the exact rate 0.125 Mbps; the code publishes
"0.12" (ties to even) where half-up rounding would give 0.13, and a fresh key
publishes the text "0", which does not have two decimal places. -/
theorem C5_counterexample :
    (publish_mbps ⟨⟨"homeassistant", "go2rtc/tablets", []⟩, ⟨2, [("10.0.0.5_cam1_tablet", 0)]⟩, []⟩
        "10.0.0.5" "tablet_10_0_0_5" "go2rtc/tablets/tablet_10_0_0_5" Json.null "cam1_tablet"
        31250).log.map Prod.snd =
      [Payload.json (sensorConfig "tablet_10_0_0_5" "cam1_tablet_mbps" "cam1_tablet Mbps"
          "go2rtc/tablets/tablet_10_0_0_5/cam1_tablet/mbps" Json.null (some "Mbps")),
       Payload.text "0.12"] ∧
    roundHalfUp2 ((((31250 - 0) : Int) : ℚ) * 8 / (((2 : Int) : ℚ) * 1000000)) = 13/100 ∧
    (12 : ℚ) / 100 ≠ 13/100 ∧
    (publish_mbps ⟨⟨"homeassistant", "go2rtc/tablets", []⟩, ⟨2, []⟩, []⟩
        "10.0.0.5" "tablet_10_0_0_5" "go2rtc/tablets/tablet_10_0_0_5" Json.null "cam1_tablet"
        31250).log.map Prod.snd =
      [Payload.json (sensorConfig "tablet_10_0_0_5" "cam1_tablet_mbps" "cam1_tablet Mbps"
          "go2rtc/tablets/tablet_10_0_0_5/cam1_tablet/mbps" Json.null (some "Mbps")),
       Payload.text "0"] ∧
    "0" ≠ "0.00" := by
  refine ⟨rfl, ?hu, ?hne, rfl, ?hs⟩
  case hu => norm_num [roundHalfUp2]
  case hne => norm_num
  case hs => decide

/-- C7 (confirmed): the first observation of a key returns the int 0 and
stores the current counter as that key's baseline. -/
theorem C7_first_sample (m : MbpsCalculator) (key : String) (cur : Int)
    (h : lookupA m.previous_bytes key = none) :
    (m.calculate key cur).1 = PyNum.int 0 ∧
    lookupA (m.calculate key cur).2.previous_bytes key = some cur := by
  constructor
  · simp only [MbpsCalculator.calculate, h]
  · simp only [MbpsCalculator.calculate, h]
    exact lookupA_insertA_self key cur m.previous_bytes

theorem C7_first_sample_witness :
    ((MbpsCalculator.mk 30 []).calculate "k" 1000).1 = PyNum.int 0 ∧
    lookupA ((MbpsCalculator.mk 30 []).calculate "k" 1000).2.previous_bytes "k" = some 1000 :=
  C7_first_sample ⟨30, []⟩ "k" 1000 rfl

/-- C6 (confirmed): calling `_publish_field` (announce-once + state publish)
any number n ≥ 1 of times from a state where the sensor's key is not yet
announced emits the discovery config exactly once (on the first call, which
also inserts the key into the announced set) followed by one state message
per call; and from a state where the key is already announced, n calls emit
exactly the n state messages and leave the announced set unchanged. -/
theorem C6_announce_once (st : SysState) (device_id base_topic : String) (device : Json)
    (stream_name field : String) (value : Json) (n : Nat)
    (hfresh : device_id ++ "_" ++ (stream_name ++ "_" ++ field) ∉ st.ha.published)
    (hn : 1 ≤ n) :
    ((iterPF device_id base_topic device stream_name field value n st).log =
      st.log ++ fieldDiscMsg st.ha.ha_pref device_id base_topic device stream_name field ::
        List.replicate n (fieldStateMsg base_topic stream_name field value) ∧
    (iterPF device_id base_topic device stream_name field value n st).ha.published =
      st.ha.published ++ [device_id ++ "_" ++ (stream_name ++ "_" ++ field)]) ∧
    (∀ st' : SysState, device_id ++ "_" ++ (stream_name ++ "_" ++ field) ∈ st'.ha.published →
      (iterPF device_id base_topic device stream_name field value n st').log =
        st'.log ++ List.replicate n (fieldStateMsg base_topic stream_name field value) ∧
      (iterPF device_id base_topic device stream_name field value n st').ha.published =
        st'.ha.published) := by
  constructor
  · obtain ⟨k, rfl⟩ : ∃ k, n = k + 1 := ⟨n - 1, (Nat.succ_pred_eq_of_pos hn).symm⟩
    rw [iterPF, publish_field_fresh st device_id base_topic device stream_name field value hfresh]
    rw [iterPF_seen device_id base_topic device stream_name field value k
      ⟨⟨st.ha.ha_pref, st.ha.mqtt_topic,
        st.ha.published ++ [device_id ++ "_" ++ (stream_name ++ "_" ++ field)]⟩,
       st.mbps_calc,
       st.log ++ [fieldDiscMsg st.ha.ha_pref device_id base_topic device stream_name field,
                  fieldStateMsg base_topic stream_name field value]⟩
      (by simp)]
    constructor
    · simp [List.replicate_succ]
    · simp
  · intro st' hseen
    rw [iterPF_seen device_id base_topic device stream_name field value n st' hseen]
    exact ⟨rfl, rfl⟩

/-- Witness for C6 at a concrete state: two calls for a fresh sensor. -/
theorem C6_announce_once_witness :
    (iterPF "tablet_10_0_0_5" "go2rtc/tablets/tablet_10_0_0_5" Json.null "cam1_tablet" "source"
        (Json.str "rtsp://cam1") 2
        ⟨⟨"homeassistant", "go2rtc/tablets", []⟩, ⟨30, []⟩, []⟩).log =
      [] ++ fieldDiscMsg "homeassistant" "tablet_10_0_0_5" "go2rtc/tablets/tablet_10_0_0_5"
          Json.null "cam1_tablet" "source" ::
        List.replicate 2 (fieldStateMsg "go2rtc/tablets/tablet_10_0_0_5" "cam1_tablet" "source"
          (Json.str "rtsp://cam1")) ∧
    (iterPF "tablet_10_0_0_5" "go2rtc/tablets/tablet_10_0_0_5" Json.null "cam1_tablet" "source"
        (Json.str "rtsp://cam1") 2
        ⟨⟨"homeassistant", "go2rtc/tablets", []⟩, ⟨30, []⟩, []⟩).ha.published =
      [] ++ ["tablet_10_0_0_5" ++ "_" ++ ("cam1_tablet" ++ "_" ++ "source")] :=
  (C6_announce_once ⟨⟨"homeassistant", "go2rtc/tablets", []⟩, ⟨30, []⟩, []⟩
    "tablet_10_0_0_5" "go2rtc/tablets/tablet_10_0_0_5" Json.null "cam1_tablet" "source"
    (Json.str "rtsp://cam1") 2 (by decide) (by decide)).1

/-- C8 (confirmed): a stream entry whose name does not end in `_tablet` is
skipped without touching its content (`processStream` returns the accumulator
unchanged), and no stream name without the suffix ever occurs in any
ClientView of a successful extraction. -/
theorem C8_suffix_filter :
    (∀ (t : Tablets) (name : String) (data : Json),
       pyEndsWith name "_tablet" = false → processStream t name data = Except.ok t) ∧
    (∀ (streams : Json) (t : Tablets) (name : String),
       pyEndsWith name "_tablet" = false → extract_tablets streams = Except.ok t →
       ∀ e ∈ t, lookupA e.2.streams name = none) := by
  constructor
  · intro t name data h
    rw [processStream.eq_def, if_pos h]
  · intro streams t name hn hex e he
    have hg := extract_tablets_good hex
    cases hl : lookupA e.2.streams name with
    | none => rfl
    | some m =>
        have hmem := lookupA_mem hl
        have hsuf := hg e he (name, m) hmem
        rw [hn] at hsuf
        exact absurd hsuf (by simp)

theorem C8_suffix_filter_witness :
    processStream [] "front_door" (Json.int 7) = Except.ok [] ∧
    lookupA [("cam1_tablet",
      [("source", Json.str "rtsp://cam1"), ("format_name", Json.str "h264"),
       ("bytes_send", Json.int 500000)])] "front_door" = none :=
  ⟨C8_suffix_filter.1 [] "front_door" (Json.int 7) rfl,
   C8_suffix_filter.2 scenarioPayload scenarioView "front_door" rfl rfl
     ("10.0.0.5",
      ⟨Json.str "TabletUA",
       [("cam1_tablet",
         [("source", Json.str "rtsp://cam1"), ("format_name", Json.str "h264"),
          ("bytes_send", Json.int 500000)])]⟩)
     (List.mem_singleton.mpr rfl)⟩

/-- C9 (confirmed): `publish_sensor`, the only operation touching the
announced set, either leaves it unchanged (key already present) or appends
exactly that one key; in both cases every previously announced key stays
announced. -/
theorem C9_announced_monotone (p : HADiscoveryPublisher)
    (device_id entity_id name state_topic : String) (device : Json) (unit : Option String) :
    ((p.publish_sensor device_id entity_id name state_topic device unit).1.published
        = p.published ∨
      (p.publish_sensor device_id entity_id name state_topic device unit).1.published
        = p.published ++ [device_id ++ "_" ++ entity_id]) ∧
    p.published ⊆ (p.publish_sensor device_id entity_id name state_topic device unit).1.published := by
  simp only [HADiscoveryPublisher.publish_sensor]
  by_cases h : device_id ++ "_" ++ entity_id ∈ p.published
  · rw [if_pos h]
    exact ⟨Or.inl rfl, fun a ha => ha⟩
  · rw [if_neg h]
    exact ⟨Or.inr rfl, fun a ha => List.mem_append_left _ ha⟩

theorem C9_announced_monotone_witness :
    (((HADiscoveryPublisher.mk "homeassistant" "go2rtc/tablets" ["a"]).publish_sensor
        "d" "e" "n" "t" Json.null none).1.published = ["a"] ∨
      ((HADiscoveryPublisher.mk "homeassistant" "go2rtc/tablets" ["a"]).publish_sensor
        "d" "e" "n" "t" Json.null none).1.published = ["a"] ++ ["d" ++ "_" ++ "e"]) ∧
    "a" ∈ ((HADiscoveryPublisher.mk "homeassistant" "go2rtc/tablets" ["a"]).publish_sensor
        "d" "e" "n" "t" Json.null none).1.published :=
  ⟨(C9_announced_monotone ⟨"homeassistant", "go2rtc/tablets", ["a"]⟩ "d" "e" "n" "t"
      Json.null none).1,
   (C9_announced_monotone ⟨"homeassistant", "go2rtc/tablets", ["a"]⟩ "d" "e" "n" "t"
      Json.null none).2 (List.mem_singleton.mpr rfl)⟩

/-- C10 (confirmed): a consumer whose remote-address field is a non-empty
string containing no colon is not skipped: `extract_ip` returns the entire
string, and the consumer-loop body records the ClientView under exactly that
string as the client IP key. -/
theorem C10_no_colon_ip (t : Tablets) (name s : String) (po co : List (String × Json))
    (hs : s ≠ "") (hnc : ∀ c ∈ s.data, c ≠ ':')
    (hra : jGet co "remote_addr" (Json.str "") = Json.str s) :
    extract_ip (Json.str s) = Except.ok (some s) ∧
    ∃ t', processConsumer t name (Json.obj po) (Json.obj co) = Except.ok t' ∧
      lookupA t' s ≠ none := by
  have htw : s.data.takeWhile (fun c => !decide (c = ':')) = s.data :=
    takeWhile_all fun c hc => by simp [hnc c hc]
  have htr : truthy (Json.str s) = true := by simp [truthy, hs]
  have hip : extract_ip (Json.str s) = Except.ok (some s) := by
    simp [extract_ip, htr, htw, strmk_data]
  refine ⟨hip, ?_⟩
  simp only [processConsumer, hra, hip]
  rw [if_neg hs]
  cases hl : lookupA t s with
  | none =>
      simp only [hl]
      refine ⟨_, rfl, ?_⟩
      apply lookupA_setStream_isSome
      rw [lookupA_append_self hl]
      simp
  | some v =>
      simp only [hl]
      refine ⟨_, rfl, ?_⟩
      apply lookupA_setStream_isSome
      rw [hl]
      simp

theorem C10_no_colon_ip_witness :
    extract_ip (Json.str "myhost") = Except.ok (some "myhost") ∧
    ∃ t', processConsumer [] "cam1_tablet" (Json.obj [])
        (Json.obj [("remote_addr", Json.str "myhost")]) = Except.ok t' ∧
      lookupA t' "myhost" ≠ none :=
  C10_no_colon_ip [] "cam1_tablet" "myhost" [] [("remote_addr", Json.str "myhost")]
    (by decide) (by decide) rfl
